import Mathlib

/-!
# MPU6050 orientation sketch (`src/main.cpp`)

A shallow embedding of the Arduino sketch: `setup()` and `loop()` become
functions over an explicit state, the sensor sample and the `millis()` readings
become inputs, and the calls on `Serial` become a list of writes.

The floating-point operations of the sketch are the fields of `FloatEnv`, so
that `loop` itself is an executable definition for any number type.  Facts that
do not depend on the arithmetic are proved for every environment; the numeric
facts are proved in `realEnv` (exact real arithmetic, no rounding) and in
`extEnv` (exact reals extended with the two infinities and not-a-number).
-/

namespace MPU6050

/-! ## Data model -/

/-- One write on the serial channel, in the order the sketch issues them.
`num x` is the text `Serial.print` renders for the float `x`; `newline` is the
line terminator `println` appends. -/
inductive SerialWrite (F : Type) where
  | text (s : String)
  | num (x : F)
  | newline

/-- Floating-point operations the sketch uses: the conversion from integer
types (`ofInt`, which also yields the whole-number literals `180`, `2`, `1000.0`
and `131.0`), `+`, `*`, `/`, the libm calls `atan2`, `atan`, `sqrt`, `pow`, the
`PI` constant and the narrowing of a `double` stored into a `float` variable. -/
structure FloatEnv (F : Type) where
  ofInt : Int → F
  add : F → F → F
  mul : F → F → F
  div : F → F → F
  atan2 : F → F → F
  atan : F → F
  sqrt : F → F
  pow : F → F → F
  pi : F
  narrow : F → F

/-- What one call of `loop()` receives from the hardware: the six values
`mpu.getMotion6` stores, the value `millis()` returns to the initialiser of the
function-local `static unsigned long lastTime` (it runs on the first call only)
and the value `millis()` returns to `unsigned long now`. -/
structure LoopInput where
  ax : Int
  ay : Int
  az : Int
  gx : Int
  gy : Int
  gz : Int
  millisInit : Nat
  millisNow : Nat

/-- The six sample values fit `int16_t` and both clock readings fit a 32-bit
`unsigned long`. -/
def LoopInput.WellFormed (i : LoopInput) : Prop :=
  (-32768 ≤ i.ax ∧ i.ax ≤ 32767) ∧ (-32768 ≤ i.ay ∧ i.ay ≤ 32767) ∧
  (-32768 ≤ i.az ∧ i.az ≤ 32767) ∧ (-32768 ≤ i.gx ∧ i.gx ≤ 32767) ∧
  (-32768 ≤ i.gy ∧ i.gy ≤ 32767) ∧ (-32768 ≤ i.gz ∧ i.gz ≤ 32767) ∧
  i.millisInit < 4294967296 ∧ i.millisNow < 4294967296

/-- The variables that outlive a call of `loop()`: the globals `pitch`, `roll`,
`yaw` and the static `lastTime`, which is `none` until its initialiser has
run. -/
structure LoopState (F : Type) where
  pitch : F
  roll : F
  yaw : F
  lastTime : Option Nat

/-- State at program start: the three globals are zero-initialised and the
static local has not been initialised yet. -/
def initState {F : Type} (E : FloatEnv F) : LoopState F :=
  { pitch := E.ofInt 0, roll := E.ofInt 0, yaw := E.ofInt 0, lastTime := none }

/-! ## `setup()` -/

/-- How a call ends: it returns to its caller, or it stays in `while (1);`. -/
inductive Control where
  | returns
  | spins
  deriving DecidableEq

/-- Serial writes of `setup()` and the way it ends. -/
structure SetupResult (F : Type) where
  serial : List (SerialWrite F)
  control : Control

/-- Body of `setup()`.  `Serial.begin`, `Wire.begin` and `mpu.initialize` write
nothing on the serial channel; `testConnection` is the value returned by
`mpu.testConnection()`. -/
def setup (F : Type) (testConnection : Bool) : SetupResult F :=
  if !testConnection then
    { serial := [SerialWrite.text "MPU6050 connection failed!", SerialWrite.newline],
      control := Control.spins }
  else
    { serial := [], control := Control.returns }

/-! ## `loop()` -/

/-- The unsigned 32-bit subtraction `now - lastTime`. -/
def elapsedMs (lastTime now : Nat) : Nat :=
  (now % 4294967296 + (4294967296 - lastTime % 4294967296)) % 4294967296

/-- The expression `(now - lastTime) / 1000.0` as stored into `float dt`. -/
def dtSeconds {F : Type} (E : FloatEnv F) (lastTime now : Nat) : F :=
  E.narrow (E.div (E.ofInt (Int.ofNat (elapsedMs lastTime now))) (E.ofInt 1000))

/-- The expression `atan2(ay, az) * 180 / PI` as stored into `roll`. -/
def rollOf {F : Type} (E : FloatEnv F) (ay az : Int) : F :=
  E.narrow (E.div (E.mul (E.atan2 (E.ofInt ay) (E.ofInt az)) (E.ofInt 180)) E.pi)

/-- The expression `-ax / sqrt(pow(ay, 2) + pow(az, 2))`.  The negation is the
integer negation of `ax` promoted to `int`, taken here without overflow (an
`int` of 16 bits cannot hold the negation of `ax = -32768`). -/
def pitchQuotient {F : Type} (E : FloatEnv F) (ax ay az : Int) : F :=
  E.div (E.ofInt (-ax))
    (E.sqrt (E.add (E.pow (E.ofInt ay) (E.ofInt 2)) (E.pow (E.ofInt az) (E.ofInt 2))))

/-- The expression `atan(-ax / sqrt(pow(ay, 2) + pow(az, 2))) * 180 / PI` as
stored into `pitch`. -/
def pitchOf {F : Type} (E : FloatEnv F) (ax ay az : Int) : F :=
  E.narrow (E.div (E.mul (E.atan (pitchQuotient E ax ay az)) (E.ofInt 180)) E.pi)

/-- Value of `lastTime` once control has passed its declaration: the stored
value, or the initialiser's `millis()` reading on the first call. -/
def lastTimeAtEntry (stored : Option Nat) (millisInit : Nat) : Nat :=
  match stored with
  | some t => t
  | none => millisInit

/-- Body of `loop()`: the new values of the persistent variables and the serial
writes of this call.  The closing `delay(50)` changes no variable; the time it
takes shows in the clock readings of the next call. -/
def loop {F : Type} (E : FloatEnv F) (st : LoopState F) (i : LoopInput) :
    LoopState F × List (SerialWrite F) :=
  let roll := rollOf E i.ay i.az
  let pitch := pitchOf E i.ax i.ay i.az
  let lastTime := lastTimeAtEntry st.lastTime i.millisInit
  let now := i.millisNow
  let dt := dtSeconds E lastTime now
  let yaw := E.narrow (E.add st.yaw (E.mul (E.div (E.ofInt i.gz) (E.ofInt 131)) dt))
  ({ pitch := pitch, roll := roll, yaw := yaw, lastTime := some now },
   [SerialWrite.num pitch, SerialWrite.text ",", SerialWrite.num roll,
    SerialWrite.text ",", SerialWrite.num yaw, SerialWrite.newline])

/-- The calls `loop(); loop(); ...` made by the Arduino core, one per input, with
the serial writes in order. -/
def runLoop {F : Type} (E : FloatEnv F) :
    LoopState F → List LoopInput → LoopState F × List (SerialWrite F)
  | st, [] => (st, [])
  | st, i :: rest =>
    let r := loop E st i
    let q := runLoop E r.1 rest
    (q.1, r.2 ++ q.2)

/-- What a run of the sketch has done. `samples` are the inputs consumed by
calls of `loop()`. -/
structure Run (F : Type) where
  serial : List (SerialWrite F)
  state : LoopState F
  samples : List LoopInput

/-- The Arduino core entry point `setup(); for (;;) loop();`, observed for as
long as the hardware offers the inputs `offered`: when `setup()` does not return
no call of `loop()` is made, whatever is offered. -/
def sketch {F : Type} (E : FloatEnv F) (testConnection : Bool) (offered : List LoopInput) :
    Run F :=
  let s := setup F testConnection
  match s.control with
  | Control.spins => { serial := s.serial, state := initState E, samples := [] }
  | Control.returns =>
    let r := runLoop E (initState E) offered
    { serial := s.serial ++ r.2, state := r.1, samples := offered }

/-- Text on the wire for a list of writes, given the renderer of floats and the
line terminator of the core. -/
def render {F : Type} (fmt : F → String) (eol : String) : List (SerialWrite F) → String
  | [] => ""
  | SerialWrite.text s :: rest => s ++ render fmt eol rest
  | SerialWrite.num x :: rest => fmt x ++ render fmt eol rest
  | SerialWrite.newline :: rest => eol ++ render fmt eol rest

/-! ## Exact real arithmetic -/

/-- Two-argument arctangent `atan2(y, x)` over the reals: the angle in
`(-π, π]` of the point `(x, y)`, with `atan2(0, 0) = 0`. -/
noncomputable def realAtan2 (y x : ℝ) : ℝ :=
  if 0 < x then Real.arctan (y / x)
  else if x < 0 then
    (if 0 ≤ y then Real.arctan (y / x) + Real.pi else Real.arctan (y / x) - Real.pi)
  else if 0 < y then Real.pi / 2
  else if y < 0 then -(Real.pi / 2)
  else 0

/-- The sketch's arithmetic carried out exactly over the reals: no rounding, so
narrowing changes nothing, and `PI` is π. -/
noncomputable def realEnv : FloatEnv ℝ where
  ofInt := fun n => (n : ℝ)
  add := fun x y => x + y
  mul := fun x y => x * y
  div := fun x y => x / y
  atan2 := realAtan2
  atan := Real.arctan
  sqrt := Real.sqrt
  pow := fun x y => x ^ y
  pi := Real.pi
  narrow := fun x => x

/-! ## Exact reals with infinities and not-a-number -/

/-- An IEEE-style value without rounding: a real number, `+∞`, `-∞` or NaN. -/
inductive XReal where
  | fin (r : ℝ)
  | posInf
  | negInf
  | nan

namespace XReal

/-- The value is a real number (neither infinite nor NaN). -/
def IsFinite : XReal → Prop
  | fin _ => True
  | _ => False

/-- The value is `+∞` or `-∞`. -/
def IsInfinite : XReal → Prop
  | posInf => True
  | negInf => True
  | _ => False

/-- The value is NaN. -/
def IsNaN : XReal → Prop
  | nan => True
  | _ => False

/-- The infinity with the sign of `s`; NaN when `s` is zero. -/
noncomputable def infOfSign (s : ℝ) : XReal :=
  if 0 < s then posInf else if s < 0 then negInf else nan

/-- Addition: `∞ + (-∞)` and anything with NaN are NaN. -/
noncomputable def add : XReal → XReal → XReal
  | fin a, fin b => fin (a + b)
  | fin _, posInf => posInf
  | fin _, negInf => negInf
  | posInf, fin _ => posInf
  | posInf, posInf => posInf
  | negInf, fin _ => negInf
  | negInf, negInf => negInf
  | _, _ => nan

/-- Multiplication: `0 * ∞` and anything with NaN are NaN. -/
noncomputable def mul : XReal → XReal → XReal
  | fin a, fin b => fin (a * b)
  | fin a, posInf => infOfSign a
  | fin a, negInf => infOfSign (-a)
  | posInf, fin b => infOfSign b
  | negInf, fin b => infOfSign (-b)
  | posInf, posInf => posInf
  | negInf, negInf => posInf
  | posInf, negInf => negInf
  | negInf, posInf => negInf
  | _, _ => nan

/-- Division.  A zero divisor is the positive zero (every divisor `loop` can
make zero is a square root), so `x / 0` is the infinity with the sign of `x`
for `x ≠ 0` and `0 / 0` is NaN. -/
noncomputable def div : XReal → XReal → XReal
  | fin a, fin b => if b = 0 then infOfSign a else fin (a / b)
  | fin _, posInf => fin 0
  | fin _, negInf => fin 0
  | posInf, fin b => if 0 ≤ b then posInf else negInf
  | negInf, fin b => if 0 ≤ b then negInf else posInf
  | _, _ => nan

/-- Square root: NaN below zero, `sqrt(+∞) = +∞`. -/
noncomputable def sqrt : XReal → XReal
  | fin a => if 0 ≤ a then fin (Real.sqrt a) else nan
  | posInf => posInf
  | _ => nan

/-- Arctangent: `atan(±∞) = ±π/2` (C99 F.9.1.3), NaN for NaN. -/
noncomputable def atan : XReal → XReal
  | fin a => fin (Real.arctan a)
  | posInf => fin (Real.pi / 2)
  | negInf => fin (-(Real.pi / 2))
  | nan => nan

/-- Two-argument arctangent `atan2(y, x)` with the infinite cases of C99
F.9.1.4. -/
noncomputable def atan2 : XReal → XReal → XReal
  | fin y, fin x => fin (realAtan2 y x)
  | fin _, posInf => fin 0
  | fin y, negInf => if 0 ≤ y then fin Real.pi else fin (-Real.pi)
  | posInf, fin _ => fin (Real.pi / 2)
  | negInf, fin _ => fin (-(Real.pi / 2))
  | posInf, posInf => fin (Real.pi / 4)
  | posInf, negInf => fin (3 * Real.pi / 4)
  | negInf, posInf => fin (-(Real.pi / 4))
  | negInf, negInf => fin (-(3 * Real.pi / 4))
  | _, _ => nan

/-- The real `y` is an integer. -/
def IsInt (y : ℝ) : Prop := ∃ k : ℤ, y = (k : ℝ)

/-- The real `y` is an odd integer. -/
def IsOddInt (y : ℝ) : Prop := ∃ k : ℤ, y = 2 * (k : ℝ) + 1

noncomputable instance (y : ℝ) : Decidable (IsInt y) := Classical.propDecidable _

noncomputable instance (y : ℝ) : Decidable (IsOddInt y) := Classical.propDecidable _

/-- Power `pow(x, y)` with the special cases of C99 F.9.4.4 (zeros are
positive). -/
noncomputable def pow : XReal → XReal → XReal
  | x, fin b =>
    if b = 0 then fin 1
    else
      match x with
      | fin a =>
        if a = 1 then fin 1
        else if a = 0 then (if b < 0 then posInf else fin 0)
        else if a < 0 ∧ ¬ IsInt b then nan
        else fin (a ^ b)
      | posInf => if b < 0 then fin 0 else posInf
      | negInf => if b < 0 then fin 0 else if IsOddInt b then negInf else posInf
      | nan => nan
  | fin a, posInf => if |a| = 1 then fin 1 else if |a| < 1 then fin 0 else posInf
  | fin a, negInf => if |a| = 1 then fin 1 else if |a| < 1 then posInf else fin 0
  | posInf, posInf => posInf
  | negInf, posInf => posInf
  | posInf, negInf => fin 0
  | negInf, negInf => fin 0
  | fin a, nan => if a = 1 then fin 1 else nan
  | _, _ => nan

end XReal

/-- The sketch's arithmetic over `XReal`: finite results are exact, division by
zero and the libm calls follow the IEEE/C99 rules for infinities and NaN. -/
noncomputable def extEnv : FloatEnv XReal where
  ofInt := fun n => XReal.fin (n : ℝ)
  add := XReal.add
  mul := XReal.mul
  div := XReal.div
  atan2 := XReal.atan2
  atan := XReal.atan
  sqrt := XReal.sqrt
  pow := XReal.pow
  pi := XReal.fin Real.pi
  narrow := fun x => x

/-! ## Reference quantities for the yaw integral -/

/-- Per-call yaw increments `(gz / 131) * dt` in exact rational arithmetic, `dt`
being the milliseconds between the timestamp held in `lastTime` and the call's
own timestamp, divided by 1000.  `stored` is `lastTime` before the first call. -/
def yawIncrements (stored : Option Nat) : List LoopInput → List ℚ
  | [] => []
  | i :: rest =>
    ((i.gz : ℚ) / 131)
        * (((elapsedMs (lastTimeAtEntry stored i.millisInit) i.millisNow : Nat) : ℚ) / 1000)
      :: yawIncrements (some i.millisNow) rest

/-- Every call of the run sees `gz = 131` and a timestamp 50 ms after the one
held in `lastTime`. -/
def SteadyRate (stored : Option Nat) : List LoopInput → Prop
  | [] => True
  | i :: rest =>
    i.gz = 131 ∧ elapsedMs (lastTimeAtEntry stored i.millisInit) i.millisNow = 50 ∧
      SteadyRate (some i.millisNow) rest

/-- A run of `n` calls at rest on the z-axis with `gz = 131`, the clock read
every 50 ms starting at `t`. -/
def steadyInputs (t : Nat) : Nat → List LoopInput
  | 0 => []
  | n + 1 =>
    { ax := 0, ay := 0, az := 16384, gx := 0, gy := 0, gz := 131,
      millisInit := t, millisNow := t + 50 } :: steadyInputs (t + 50) n

/-! ## Auxiliary lemmas -/

theorem runLoop_append {F : Type} (E : FloatEnv F) (st : LoopState F)
    (a b : List LoopInput) :
    runLoop E st (a ++ b)
      = ((runLoop E (runLoop E st a).1 b).1,
         (runLoop E st a).2 ++ (runLoop E (runLoop E st a).1 b).2) := by
  induction a generalizing st with
  | nil => rfl
  | cons i rest ih => simp [runLoop, ih]

theorem runLoop_append_state {F : Type} (E : FloatEnv F) (st : LoopState F)
    (a b : List LoopInput) :
    (runLoop E st (a ++ b)).1 = (runLoop E (runLoop E st a).1 b).1 := by
  rw [runLoop_append]

theorem elapsedMs_rollover (p e : Nat) (he : e < 4294967296) :
    elapsedMs p ((p + e) % 4294967296) = e := by
  unfold elapsedMs
  omega

theorem elapsedMs_int (p n : Nat) :
    ((elapsedMs p n : Nat) : ℤ) = ((n : ℤ) - (p : ℤ)) % 4294967296 := by
  unfold elapsedMs
  omega

theorem elapsedMs_no_rollover (p d : Nat) (h : p + d < 4294967296) :
    elapsedMs p (p + d) = d := by
  unfold elapsedMs
  omega

theorem elapsedMs_self (p : Nat) : elapsedMs p p = 0 := by
  unfold elapsedMs
  omega

theorem dtSeconds_real (p n : Nat) :
    dtSeconds realEnv p n = ((elapsedMs p n : Nat) : ℝ) / 1000 := by
  simp [dtSeconds, realEnv]

theorem loop_yaw_real (st : LoopState ℝ) (i : LoopInput) :
    (loop realEnv st i).1.yaw
      = st.yaw + (i.gz : ℝ) / 131
          * (((elapsedMs (lastTimeAtEntry st.lastTime i.millisInit) i.millisNow : Nat) : ℝ)
              / 1000) := by
  simp [loop, dtSeconds, realEnv]

theorem runLoop_yaw_real (st : LoopState ℝ) (ins : List LoopInput) :
    (runLoop realEnv st ins).1.yaw
      = st.yaw + (((yawIncrements st.lastTime ins).sum : ℚ) : ℝ) := by
  induction ins generalizing st with
  | nil => simp [runLoop, yawIncrements]
  | cons i rest ih =>
    have hl : (loop realEnv st i).1.lastTime = some i.millisNow := rfl
    simp only [runLoop, yawIncrements, List.sum_cons, ih, hl, loop_yaw_real]
    push_cast
    ring

theorem yawIncrements_steady (stored : Option Nat) (ins : List LoopInput)
    (h : SteadyRate stored ins) :
    (yawIncrements stored ins).sum = (ins.length : ℚ) * (1 / 20) := by
  induction ins generalizing stored with
  | nil => simp [yawIncrements]
  | cons i rest ih =>
    obtain ⟨hg, he, hr⟩ := h
    simp only [yawIncrements, List.sum_cons, ih _ hr, hg, he, List.length_cons]
    push_cast
    norm_num
    ring

theorem pitchQuotient_ext_zero (ax : Int) :
    pitchQuotient extEnv ax 0 0
      = if ax = 0 then XReal.nan else if ax < 0 then XReal.posInf else XReal.negInf := by
  have h0 : XReal.sqrt (XReal.add (XReal.pow (XReal.fin 0) (XReal.fin 2))
      (XReal.pow (XReal.fin 0) (XReal.fin 2))) = XReal.fin 0 := by
    have hp : XReal.pow (XReal.fin 0) (XReal.fin 2) = XReal.fin 0 := by
      norm_num [XReal.pow]
    simp [hp, XReal.add, XReal.sqrt]
  simp only [pitchQuotient, extEnv, Int.cast_zero, Int.cast_ofNat, h0]
  rcases lt_trichotomy ax 0 with h | h | h
  · have h1 : (0 : ℝ) < ((-ax : ℤ) : ℝ) := by exact_mod_cast (by omega : (0 : ℤ) < -ax)
    simp [XReal.div, XReal.infOfSign, h1, h, h.ne]
  · subst h
    simp [XReal.div, XReal.infOfSign]
  · have h1 : ((-ax : ℤ) : ℝ) < 0 := by exact_mod_cast (by omega : -ax < (0 : ℤ))
    simp [XReal.div, XReal.infOfSign, h, not_lt.mpr h.le, h.ne', not_lt.mpr h1.le]

theorem pitchOf_ext_zero (ax : Int) :
    pitchOf extEnv ax 0 0
      = if ax = 0 then XReal.nan
        else if ax < 0 then XReal.fin 90 else XReal.fin (-90) := by
  have hpi : Real.pi ≠ 0 := Real.pi_ne_zero
  have hq := pitchQuotient_ext_zero ax
  unfold pitchOf
  rw [hq]
  by_cases h0 : ax = 0
  · simp [h0, extEnv, XReal.atan, XReal.mul, XReal.div]
  · by_cases h1 : ax < 0
    · simp only [h0, h1, if_true, if_false, extEnv, XReal.atan, XReal.mul, XReal.div, hpi]
      congr 1
      push_cast
      field_simp
      ring
    · simp only [h0, h1, if_false, extEnv, XReal.atan, XReal.mul, XReal.div, hpi]
      congr 1
      push_cast
      field_simp
      ring

/-! ## Startup -/

/-- C1: when the connectivity check fails, `setup()` writes exactly the line
"MPU6050 connection failed!" and stays in its endless loop, so the sketch writes
nothing else and consumes no sample however many are offered; when the check
succeeds, `setup()` writes nothing and returns, and the sketch's output and state
are those of the `loop()` calls. -/
theorem setup_connection_gate {F : Type} (E : FloatEnv F) (offered : List LoopInput)
    (fmt : F → String) (eol : String) :
    ((setup F false).serial
        = [SerialWrite.text "MPU6050 connection failed!", SerialWrite.newline] ∧
      render fmt eol (setup F false).serial = "MPU6050 connection failed!" ++ eol ∧
      (setup F false).control = Control.spins ∧
      (sketch E false offered).serial
        = [SerialWrite.text "MPU6050 connection failed!", SerialWrite.newline] ∧
      (sketch E false offered).samples = [] ∧
      (sketch E false offered).state = initState E) ∧
    ((setup F true).serial = [] ∧
      (setup F true).control = Control.returns ∧
      (sketch E true offered).serial = (runLoop E (initState E) offered).2 ∧
      (sketch E true offered).samples = offered ∧
      (sketch E true offered).state = (runLoop E (initState E) offered).1) := by
  refine ⟨⟨rfl, ?_, rfl, rfl, rfl, rfl⟩, rfl, rfl, ?_, rfl, rfl⟩
  · simp [setup, render]
  · simp [sketch, setup]

/-! ## Roll and pitch -/

/-- C2: for a sample with `ax = 0`, `ay = 0` and `az > 0` the call of `loop()`
stores roll = 0 and pitch = 0 (exact real arithmetic), whatever the gyro values,
the clock readings and the previous state. -/
theorem roll_pitch_level (st : LoopState ℝ) (i : LoopInput)
    (hx : i.ax = 0) (hy : i.ay = 0) (hz : 0 < i.az) :
    (loop realEnv st i).1.roll = 0 ∧ (loop realEnv st i).1.pitch = 0 := by
  have hz' : (0 : ℝ) < (i.az : ℝ) := by exact_mod_cast hz
  constructor
  · simp [loop, rollOf, realEnv, realAtan2, hy, hz']
  · simp [loop, pitchOf, pitchQuotient, realEnv, hx]

/-- Witness of C2 at `az = 16384`. -/
theorem roll_pitch_level_witness :
    (loop realEnv (initState realEnv)
        { ax := 0, ay := 0, az := 16384, gx := 7, gy := -3, gz := 250,
          millisInit := 12, millisNow := 12 }).1.roll = 0 ∧
    (loop realEnv (initState realEnv)
        { ax := 0, ay := 0, az := 16384, gx := 7, gy := -3, gz := 250,
          millisInit := 12, millisNow := 12 }).1.pitch = 0 :=
  roll_pitch_level (initState realEnv)
    { ax := 0, ay := 0, az := 16384, gx := 7, gy := -3, gz := 250,
      millisInit := 12, millisNow := 12 } rfl rfl (by decide)

/-- C3: for a sample with `az = 0` and `ay > 0` the call of `loop()` stores
roll = 90 exactly (exact real arithmetic), whatever `ax`, the gyro values, the
clock readings and the previous state. -/
theorem roll_on_side (st : LoopState ℝ) (i : LoopInput)
    (hz : i.az = 0) (hy : 0 < i.ay) :
    (loop realEnv st i).1.roll = 90 := by
  have hy' : (0 : ℝ) < (i.ay : ℝ) := by exact_mod_cast hy
  have hpi : Real.pi ≠ 0 := Real.pi_ne_zero
  simp only [loop, rollOf, realEnv, realAtan2, hz, Int.cast_zero, lt_irrefl, if_false, hy',
    if_true]
  field_simp
  ring

/-- Witness of C3 at `ay = 16384`, `ax = 0`. -/
theorem roll_on_side_witness :
    (loop realEnv (initState realEnv)
        { ax := 0, ay := 16384, az := 0, gx := 0, gy := 0, gz := 0,
          millisInit := 12, millisNow := 12 }).1.roll = 90 :=
  roll_on_side (initState realEnv)
    { ax := 0, ay := 16384, az := 0, gx := 0, gy := 0, gz := 0,
      millisInit := 12, millisNow := 12 } rfl (by decide)

/-! ## Yaw -/

/-- C4: over exact arithmetic the yaw after any run of calls is the initial yaw
plus the sum of the increments `(gz / 131) * dt`, so it is never reset or
wrapped; when every call sees `gz = 131` and a timestamp 50 ms after the
previous one, yaw grows by 0.05 per call, hence by 0.5 over ten calls. -/
theorem yaw_accumulates (st : LoopState ℝ) (ins : List LoopInput) :
    (runLoop realEnv st ins).1.yaw
        = st.yaw + (((yawIncrements st.lastTime ins).sum : ℚ) : ℝ) ∧
    (SteadyRate st.lastTime ins →
      (runLoop realEnv st ins).1.yaw = st.yaw + (ins.length : ℝ) * (1 / 20)) ∧
    (SteadyRate st.lastTime ins → ins.length = 10 →
      (runLoop realEnv st ins).1.yaw = st.yaw + 1 / 2) := by
  refine ⟨runLoop_yaw_real st ins, ?_, ?_⟩
  · intro h
    rw [runLoop_yaw_real, yawIncrements_steady _ _ h]
    push_cast
    ring
  · intro h hn
    rw [runLoop_yaw_real, yawIncrements_steady _ _ h, hn]
    push_cast
    norm_num

/-- Witness of C4: ten calls from program start with `gz = 131` and timestamps
50 ms apart leave yaw at 0.5. -/
theorem yaw_accumulates_witness :
    SteadyRate (initState realEnv).lastTime (steadyInputs 1000 10) ∧
      (steadyInputs 1000 10).length = 10 ∧
      (runLoop realEnv (initState realEnv) (steadyInputs 1000 10)).1.yaw = 1 / 2 := by
  have hs : SteadyRate (initState realEnv).lastTime (steadyInputs 1000 10) := by
    simp [SteadyRate, steadyInputs, initState, lastTimeAtEntry, elapsedMs]
  have hl : (steadyInputs 1000 10).length = 10 := by simp [steadyInputs]
  refine ⟨hs, hl, ?_⟩
  have h := (yaw_accumulates (initState realEnv) (steadyInputs 1000 10)).2.2 hs hl
  rw [h]
  simp [initState, realEnv]

/-- C5: in every arithmetic, two calls of `loop()` on the same sample store the
same pitch and the same roll whatever the two prior states and the clock
readings; yet there are two histories from program start, differing in one
earlier `gz`, after which the same current sample leaves equal pitch and roll
but different yaw. -/
theorem pitch_roll_memoryless_yaw_not {F : Type} (E : FloatEnv F) (s₁ s₂ : LoopState F)
    (i : LoopInput) (a b c d : Nat) :
    ((loop E s₁ { i with millisInit := a, millisNow := b }).1.pitch
        = (loop E s₂ { i with millisInit := c, millisNow := d }).1.pitch ∧
      (loop E s₁ { i with millisInit := a, millisNow := b }).1.roll
        = (loop E s₂ { i with millisInit := c, millisNow := d }).1.roll) ∧
    ∃ (h₁ h₂ : List LoopInput) (cur : LoopInput),
      (runLoop realEnv (initState realEnv) (h₁ ++ [cur])).1.pitch
          = (runLoop realEnv (initState realEnv) (h₂ ++ [cur])).1.pitch ∧
      (runLoop realEnv (initState realEnv) (h₁ ++ [cur])).1.roll
          = (runLoop realEnv (initState realEnv) (h₂ ++ [cur])).1.roll ∧
      (runLoop realEnv (initState realEnv) (h₁ ++ [cur])).1.yaw
          ≠ (runLoop realEnv (initState realEnv) (h₂ ++ [cur])).1.yaw := by
  refine ⟨⟨rfl, rfl⟩,
    [{ ax := 0, ay := 0, az := 16384, gx := 0, gy := 0, gz := 131,
       millisInit := 0, millisNow := 0 },
     { ax := 0, ay := 0, az := 16384, gx := 0, gy := 0, gz := 131,
       millisInit := 0, millisNow := 50 }],
    [{ ax := 0, ay := 0, az := 16384, gx := 0, gy := 0, gz := 131,
       millisInit := 0, millisNow := 0 },
     { ax := 0, ay := 0, az := 16384, gx := 0, gy := 0, gz := 0,
       millisInit := 0, millisNow := 50 }],
    { ax := 100, ay := 200, az := 16000, gx := 0, gy := 0, gz := 0,
      millisInit := 0, millisNow := 100 }, ?_, ?_, ?_⟩
  · simp [runLoop, loop]
  · simp [runLoop, loop]
  · simp only [runLoop_yaw_real]
    simp [yawIncrements, initState, lastTimeAtEntry, elapsedMs]

/-! ## Timing -/

/-- C6: in every call after the first of any run, the yaw update uses the `dt`
computed from this call's timestamp and the timestamp of the call just before
it, and after every call `lastTime` holds that call's timestamp.  Over the reals
this `dt` is the 32-bit difference of the two timestamps divided by 1000, which
is their plain difference when the counter has not rolled over in between; it is
not the nominal 50 ms (timestamps 58 ms apart give 0.058 s). -/
theorem dt_from_consecutive_timestamps {F : Type} (E : FloatEnv F) (st : LoopState F)
    (pre : List LoopInput) (prev cur : LoopInput) :
    ((runLoop E st (pre ++ [prev, cur])).1.yaw
        = E.narrow (E.add (runLoop E st (pre ++ [prev])).1.yaw
            (E.mul (E.div (E.ofInt cur.gz) (E.ofInt 131))
              (dtSeconds E prev.millisNow cur.millisNow))) ∧
      (runLoop E st (pre ++ [cur])).1.lastTime = some cur.millisNow) ∧
    dtSeconds realEnv prev.millisNow cur.millisNow
        = ((((cur.millisNow : ℤ) - (prev.millisNow : ℤ)) % 4294967296 : ℤ) : ℝ) / 1000 ∧
    (prev.millisNow ≤ cur.millisNow → cur.millisNow < 4294967296 →
      dtSeconds realEnv prev.millisNow cur.millisNow
        = ((cur.millisNow : ℝ) - (prev.millisNow : ℝ)) / 1000) ∧
    dtSeconds realEnv 1000 1058 ≠ 50 / 1000 := by
  refine ⟨⟨?_, ?_⟩, ?_, ?_, ?_⟩
  · rw [runLoop_append_state, runLoop_append_state]
    rfl
  · rw [runLoop_append_state]
    rfl
  · rw [dtSeconds_real, ← elapsedMs_int]
    simp
  · intro h1 h2
    obtain ⟨d, hd⟩ := Nat.exists_eq_add_of_le h1
    rw [hd, dtSeconds_real, elapsedMs_no_rollover _ _ (by omega)]
    push_cast
    ring
  · rw [dtSeconds_real]
    norm_num [elapsedMs]

/-- Witness of C6: timestamps 1000 and 1058 give `dt = (1058 - 1000) / 1000`. -/
theorem dt_from_consecutive_timestamps_witness :
    (1000 : Nat) ≤ 1058 ∧ (1058 : Nat) < 4294967296 ∧
      dtSeconds realEnv 1000 1058 = (((1058 : Nat) : ℝ) - ((1000 : Nat) : ℝ)) / 1000 :=
  ⟨by decide, by decide,
    (dt_from_consecutive_timestamps realEnv (initState realEnv) []
      { ax := 0, ay := 0, az := 16384, gx := 0, gy := 0, gz := 131,
        millisInit := 1000, millisNow := 1000 }
      { ax := 0, ay := 0, az := 16384, gx := 0, gy := 0, gz := 131,
        millisInit := 1000, millisNow := 1058 }).2.2.1 (by decide) (by decide)⟩

/-- C8 as stated fails: let the first call of `loop()` read the clock 120 ms
after program start, where `millis()` counts from 0 (both the initialiser of
`lastTime` and `now` read 120), with `gz = 131`.  Yaw stays 0, whereas
integrating over the time since startup would give
`131 / 131 * (120 - 0) / 1000 = 0.12`. -/
theorem first_dt_not_since_startup :
    LoopInput.WellFormed
        { ax := 0, ay := 0, az := 16384, gx := 0, gy := 0, gz := 131,
          millisInit := 120, millisNow := 120 } ∧
    (sketch realEnv true
        [{ ax := 0, ay := 0, az := 16384, gx := 0, gy := 0, gz := 131,
           millisInit := 120, millisNow := 120 }]).state.yaw = 0 ∧
    (sketch realEnv true
        [{ ax := 0, ay := 0, az := 16384, gx := 0, gy := 0, gz := 131,
           millisInit := 120, millisNow := 120 }]).state.yaw
      ≠ (131 : ℝ) / 131 * ((120 - 0) / 1000) := by
  have h : (sketch realEnv true
        [{ ax := 0, ay := 0, az := 16384, gx := 0, gy := 0, gz := 131,
           millisInit := 120, millisNow := 120 }]).state.yaw = 0 := by
    show (runLoop realEnv (initState realEnv) _).1.yaw = 0
    rw [runLoop_yaw_real]
    simp [yawIncrements, initState, lastTimeAtEntry, elapsedMs, realEnv]
  refine ⟨by simp [LoopInput.WellFormed], h, ?_⟩
  rw [h]
  norm_num

/-- C8 amended: `setup()` returns without touching the timing state, which is
initialised by the first call of `loop()` itself; the `dt` of the first call is
the time between that initialising clock reading and the call's own reading, the
first `gz` contributes `(gz / 131)` times that to yaw, and the contribution is 0
when both readings are equal. -/
theorem first_dt_within_first_call {F : Type} (E : FloatEnv F) (i : LoopInput) :
    (setup F true).control = Control.returns ∧
    (initState E).lastTime = none ∧
    (sketch E true [i]).state.yaw
        = E.narrow (E.add (E.ofInt 0)
            (E.mul (E.div (E.ofInt i.gz) (E.ofInt 131))
              (dtSeconds E i.millisInit i.millisNow))) ∧
    (sketch realEnv true [i]).state.yaw
        = (i.gz : ℝ) / 131 * (((elapsedMs i.millisInit i.millisNow : Nat) : ℝ) / 1000) ∧
    (sketch realEnv true [{ i with millisNow := i.millisInit }]).state.yaw = 0 := by
  refine ⟨rfl, rfl, rfl, ?_, ?_⟩
  · show (runLoop realEnv (initState realEnv) _).1.yaw = _
    rw [runLoop_yaw_real]
    simp [yawIncrements, initState, lastTimeAtEntry, realEnv]
  · show (runLoop realEnv (initState realEnv) _).1.yaw = _
    rw [runLoop_yaw_real]
    simp [yawIncrements, initState, lastTimeAtEntry, realEnv, elapsedMs_self]

/-- C10: if the counter read `p` at the previous call and reads
`(p + e) mod 2^32` now, with `e < 2^32` the true elapsed milliseconds, then the
32-bit subtraction yields `e`, so `dt` is `e / 1000` in every arithmetic and over
the reals, it is not negative, and yaw advances by `(gz / 131) * e / 1000`, also
when the new reading is numerically below `p`. -/
theorem dt_correct_across_rollover {F : Type} (E : FloatEnv F) (st : LoopState ℝ)
    (i : LoopInput) (p e : Nat) (he : e < 4294967296)
    (hlast : st.lastTime = some p) (hnow : i.millisNow = (p + e) % 4294967296) :
    elapsedMs p i.millisNow = e ∧
    dtSeconds E p i.millisNow = E.narrow (E.div (E.ofInt (Int.ofNat e)) (E.ofInt 1000)) ∧
    dtSeconds realEnv p i.millisNow = (e : ℝ) / 1000 ∧
    0 ≤ dtSeconds realEnv p i.millisNow ∧
    (loop realEnv st i).1.yaw = st.yaw + (i.gz : ℝ) / 131 * ((e : ℝ) / 1000) := by
  have h := elapsedMs_rollover p e he
  have hr : dtSeconds realEnv p i.millisNow = (e : ℝ) / 1000 := by
    rw [dtSeconds_real, hnow, h]
  refine ⟨by rw [hnow, h], ?_, hr, ?_, ?_⟩
  · unfold dtSeconds
    rw [hnow, h]
  · rw [hr]
    positivity
  · rw [loop_yaw_real, hlast]
    simp only [lastTimeAtEntry]
    rw [hnow, h]

/-- Witness of C10: previous reading 4294967290, 100 ms later the counter reads
94, and `dt` is 0.1 s. -/
theorem dt_correct_across_rollover_witness :
    (4294967290 + 100) % 4294967296 < 4294967290 ∧
      dtSeconds realEnv 4294967290 ((4294967290 + 100) % 4294967296)
        = ((100 : Nat) : ℝ) / 1000 :=
  ⟨by decide,
    (dt_correct_across_rollover realEnv
      { pitch := 0, roll := 0, yaw := 0, lastTime := some 4294967290 }
      { ax := 0, ay := 0, az := 16384, gx := 0, gy := 0, gz := 131,
        millisInit := 0, millisNow := (4294967290 + 100) % 4294967296 }
      4294967290 100 (by decide) rfl rfl).2.2.1⟩

/-! ## Serial output -/

/-- C7: a call of `loop()` writes exactly the pitch, a comma, the roll, a comma,
the yaw and a line break, the three values being those it has just stored; as
text this is one line `pitch,roll,yaw` followed by the line terminator, and in
any run the call appends exactly this line to what was written before. -/
theorem loop_line_format {F : Type} (E : FloatEnv F) (st : LoopState F) (i : LoopInput)
    (pre : List LoopInput) (fmt : F → String) (eol : String) :
    (loop E st i).2
        = [SerialWrite.num (loop E st i).1.pitch, SerialWrite.text ",",
           SerialWrite.num (loop E st i).1.roll, SerialWrite.text ",",
           SerialWrite.num (loop E st i).1.yaw, SerialWrite.newline] ∧
    render fmt eol (loop E st i).2
        = fmt (loop E st i).1.pitch ++ "," ++ fmt (loop E st i).1.roll ++ ","
            ++ fmt (loop E st i).1.yaw ++ eol ∧
    (runLoop E st (pre ++ [i])).2
        = (runLoop E st pre).2 ++
          [SerialWrite.num (runLoop E st (pre ++ [i])).1.pitch, SerialWrite.text ",",
           SerialWrite.num (runLoop E st (pre ++ [i])).1.roll, SerialWrite.text ",",
           SerialWrite.num (runLoop E st (pre ++ [i])).1.yaw, SerialWrite.newline] := by
  refine ⟨rfl, ?_, ?_⟩
  · simp [loop, render, String.append_assoc]
  · rw [runLoop_append]
    simp [runLoop, loop]

/-! ## Zero denominator in the pitch formula -/

/-- C9 as stated fails: for `ax = 1`, `ay = 0`, `az = 0` the quotient is `-∞`
but the stored pitch is the finite value -90, neither infinite nor NaN. -/
theorem pitch_finite_at_zero_denominator :
    LoopInput.WellFormed
        { ax := 1, ay := 0, az := 0, gx := 0, gy := 0, gz := 0,
          millisInit := 0, millisNow := 0 } ∧
    (loop extEnv (initState extEnv)
        { ax := 1, ay := 0, az := 0, gx := 0, gy := 0, gz := 0,
          millisInit := 0, millisNow := 0 }).1.pitch = XReal.fin (-90) ∧
    ¬ (XReal.IsInfinite (loop extEnv (initState extEnv)
          { ax := 1, ay := 0, az := 0, gx := 0, gy := 0, gz := 0,
            millisInit := 0, millisNow := 0 }).1.pitch ∨
        XReal.IsNaN (loop extEnv (initState extEnv)
          { ax := 1, ay := 0, az := 0, gx := 0, gy := 0, gz := 0,
            millisInit := 0, millisNow := 0 }).1.pitch) := by
  have h : (loop extEnv (initState extEnv)
          { ax := 1, ay := 0, az := 0, gx := 0, gy := 0, gz := 0,
            millisInit := 0, millisNow := 0 }).1.pitch = XReal.fin (-90) := by
    show pitchOf extEnv 1 0 0 = _
    rw [pitchOf_ext_zero]
    simp
  refine ⟨by simp [LoopInput.WellFormed], h, ?_⟩
  rw [h]
  simp [XReal.IsInfinite, XReal.IsNaN]

/-- C9 amended: for a sample with `ay = 0` and `az = 0` the zero denominator is
not special-cased: the quotient `-ax / sqrt(ay^2 + az^2)` is NaN for `ax = 0`,
`+∞` for `ax < 0` and `-∞` for `ax > 0`; the pitch stored, which is the first
value printed, is NaN for `ax = 0` and the finite value 90 for `ax < 0` or -90
for `ax > 0`, the arctangent of an infinity being finite. -/
theorem pitch_zero_denominator (st : LoopState XReal) (i : LoopInput)
    (hy : i.ay = 0) (hz : i.az = 0) :
    pitchQuotient extEnv i.ax i.ay i.az
        = (if i.ax = 0 then XReal.nan
           else if i.ax < 0 then XReal.posInf else XReal.negInf) ∧
    (loop extEnv st i).1.pitch
        = (if i.ax = 0 then XReal.nan
           else if i.ax < 0 then XReal.fin 90 else XReal.fin (-90)) ∧
    (loop extEnv st i).2.head? = some (SerialWrite.num (loop extEnv st i).1.pitch) := by
  refine ⟨?_, ?_, rfl⟩
  · rw [hy, hz]
    exact pitchQuotient_ext_zero i.ax
  · show pitchOf extEnv i.ax i.ay i.az = _
    rw [hy, hz]
    exact pitchOf_ext_zero i.ax

/-- Witness of C9 amended at `ax = -16384`: the pitch is 90. -/
theorem pitch_zero_denominator_witness :
    (loop extEnv (initState extEnv)
        { ax := -16384, ay := 0, az := 0, gx := 0, gy := 0, gz := 0,
          millisInit := 0, millisNow := 0 }).1.pitch = XReal.fin 90 := by
  have h := (pitch_zero_denominator (initState extEnv)
        { ax := -16384, ay := 0, az := 0, gx := 0, gy := 0, gz := 0,
          millisInit := 0, millisNow := 0 } rfl rfl).2.1
  simpa using h

end MPU6050
